import Mathlib

/-!
Shallow embedding of the YieldFarm repository's calculation engine and
account ledger, together with theorems settling the frozen claims.

The repository ships several near-duplicate variants:
- `src/script.js` (standalone frontend with a localStorage mock backend),
- `src/unnamed/part_001`, `src/unnamed/part_002` (frontends; `part_002`
  contains two further frontend variants, the last of which uses a
  different monthly-compounding formula),
- `src/unnamed/part_003` (two Express backend variants, called variant A
  and variant B below, separated in the file by a document separator),
- `src/unnamed/part_004` (an in-memory Express backend).

Numbers are modelled as exact rationals; the two places where the source
takes a fractional power (`Math.pow(x, 1/12)` and `Math.pow(x, 1/365)`)
are modelled with real `rpow`.
-/

namespace YieldFarm

/-- Embeds `clamp` from `script.js` / `part_001` / `part_002`:
`Math.min(Math.max(v, a), b)`. -/
def clamp (v a b : ℚ) : ℚ := min (max v a) b

/-- Embeds `apyFromTerm` (identical in `script.js`, `part_001`, both
`part_002` occurrences, `part_003` variant A and `part_004`):
linear interpolation from 30 percent at 3 months to 200 percent at
24 months, with the term clamped into the range first. -/
def apyFromTerm (months : ℚ) : ℚ :=
  let minMonths : ℚ := 3
  let maxMonths : ℚ := 24
  let minApy : ℚ := 0.30
  let maxApy : ℚ := 2.00
  let t : ℚ := (clamp months minMonths maxMonths - minMonths) / (maxMonths - minMonths)
  minApy + t * (maxApy - minApy)

theorem clamp_mono {a b : ℚ} (lo hi : ℚ) (h : a ≤ b) :
    clamp a lo hi ≤ clamp b lo hi := by
  unfold clamp
  exact min_le_min (max_le_max h le_rfl) le_rfl

theorem clamp_of_mem {t lo hi : ℚ} (h1 : lo ≤ t) (h2 : t ≤ hi) :
    clamp t lo hi = t := by
  unfold clamp
  rw [max_eq_left h1, min_eq_left h2]

theorem apyFromTerm_mono {a b : ℚ} (h : a ≤ b) : apyFromTerm a ≤ apyFromTerm b := by
  unfold apyFromTerm
  have hc := clamp_mono (a := a) (b := b) 3 24 h
  simp only
  nlinarith [hc]

theorem apyFromTerm_lower (t : ℚ) : (0.30 : ℚ) ≤ apyFromTerm t := by
  unfold apyFromTerm
  have h3 : (3 : ℚ) ≤ clamp t 3 24 := by
    unfold clamp
    exact le_min (le_max_right t 3) (by norm_num)
  simp only
  nlinarith [h3]

/-- C2: the APY curve is the clamped linear interpolation
`0.30 + (clamp(term, 3, 24) - 3) / (24 - 3) * (2.00 - 0.30)`; it takes the
values 0.30 at 3 months, 2.00 at 24 months and 1.15 at 13.5 months, clamps
out-of-range terms (`apy 1 = apy 3`, `apy 100 = apy 24`), is monotonically
non-decreasing, and is plain linear on the interval from 3 to 24. -/
theorem apy_curve_spec :
    (∀ t : ℚ, apyFromTerm t = 0.30 + (clamp t 3 24 - 3) / (24 - 3) * (2.00 - 0.30)) ∧
    apyFromTerm 3 = 0.30 ∧
    apyFromTerm 24 = 2.00 ∧
    apyFromTerm (27/2) = 1.15 ∧
    apyFromTerm 1 = apyFromTerm 3 ∧
    apyFromTerm 100 = apyFromTerm 24 ∧
    (∀ a b : ℚ, a ≤ b → apyFromTerm a ≤ apyFromTerm b) ∧
    (∀ t : ℚ, 3 ≤ t → t ≤ 24 →
      apyFromTerm t = 0.30 + (t - 3) / (24 - 3) * (2.00 - 0.30)) := by
  refine ⟨fun t => rfl, ?_, ?_, ?_, ?_, ?_, fun a b h => apyFromTerm_mono h, ?_⟩
  · unfold apyFromTerm clamp; norm_num
  · unfold apyFromTerm clamp; norm_num
  · unfold apyFromTerm clamp; norm_num
  · unfold apyFromTerm clamp; norm_num
  · unfold apyFromTerm clamp; norm_num
  · intro t h1 h2
    show 0.30 + (clamp t 3 24 - 3) / (24 - 3) * (2.00 - 0.30) =
      0.30 + (t - 3) / (24 - 3) * (2.00 - 0.30)
    rw [clamp_of_mem h1 h2]

/-- Witness for `apy_curve_spec`: the monotonicity component applied at
5 and 7 months, and the linearity component applied at 10 months. -/
theorem apy_curve_spec_witness :
    apyFromTerm 5 ≤ apyFromTerm 7 ∧
    apyFromTerm 10 = 0.30 + (10 - 3) / (24 - 3) * (2.00 - 0.30) :=
  ⟨apy_curve_spec.2.2.2.2.2.2.1 5 7 (by norm_num),
   apy_curve_spec.2.2.2.2.2.2.2 10 (by norm_num) (by norm_num)⟩

/-- Embeds JavaScript `parseInt` applied to a number: truncation toward
zero (for instance `parseInt(5.7) = 5`, `parseInt(-5.7) = -5`). -/
def jsParseInt (q : ℚ) : ℤ := if 0 ≤ q then ⌊q⌋ else ⌈q⌉

/-- Embeds the `weeklyEarnings` entries the accrual endpoint pushes:
`week` index, `earnings` delta and `timestamp` (epoch milliseconds). -/
structure WeekRecord where
  week : ℤ
  earnings : ℚ
  timestamp : ℤ
deriving Repr, DecidableEq

/-- Embeds the `newInvestment` objects built by the `/api/invest` handlers
of `part_003` (both variants); `part_004` builds the same object minus the
`endDate`, `totalEarned` and `weeklyEarnings` fields. -/
structure Investment where
  id : String
  userId : String
  amount : ℚ
  lockPeriod : ℤ
  compoundType : String
  apy : ℚ
  transactionHash : String
  startDate : ℤ
  endDate : ℚ
  status : String
  totalEarned : ℚ
  weeklyEarnings : List WeekRecord
deriving Repr, DecidableEq

/-- Embeds the transaction records pushed by `/api/invest` in `part_003`. -/
structure Transaction where
  id : String
  txType : String
  amount : ℚ
  timestamp : ℤ
  hash : String
deriving Repr, DecidableEq

/-- Embeds the `newUser` objects built by `/api/register` in `part_003`
(both variants). Timestamps are epoch milliseconds. -/
structure User where
  id : String
  email : String
  password : String
  createdAt : ℤ
  lastLogin : ℤ
  balance : ℚ
  totalEarnings : ℚ
  investments : List Investment
  isActive : Bool
  transactions : List Transaction
deriving Repr, DecidableEq

/-- Embeds the `settings` object of the persisted JSON store. -/
structure Settings where
  wallet_address : String
deriving Repr, DecidableEq

/-- Embeds the persisted JSON store `{users, settings}`. The `settings`
field is optional because variant B's corrupt-store fallback builds a
store without it. -/
structure Store where
  users : List User
  settings : Option Settings
deriving Repr, DecidableEq

/-- Wallet address constant appearing in `initDatabase` and the variant A
fallback of `readDatabase` in `part_003`. -/
def defaultWalletAddress : String := "0x71C7656EC7ab88b098defB751B7401B5f6d897AB"

/-- Embeds `readDatabase` of `part_003` variant A, abstracting the file
read and JSON parse into an `Option Store` argument (`none` means the read
or parse threw): on failure it returns the default structure with empty
users and the configured wallet address. -/
def readDatabaseA (parsed : Option Store) : Store :=
  match parsed with
  | some db => db
  | none => { users := [], settings := some { wallet_address := defaultWalletAddress } }

/-- Embeds `readDatabase` of `part_003` variant B: on failure it returns
an object holding only an empty `users` array, with no `settings`. -/
def readDatabaseB (parsed : Option Store) : Store :=
  match parsed with
  | some db => db
  | none => { users := [], settings := none }

/-- Embeds the `/api/wallet-address` handler of `part_003` (both variants
read `db.settings.wallet_address`); `none` models the TypeError thrown
when `db.settings` is undefined. -/
def walletAddressOp (db : Store) : Option String :=
  db.settings.map (fun s => s.wallet_address)

/-- Helper modelling the JavaScript idiom of mutating the object returned
by `Array.prototype.find` in place: rewrites the first element satisfying
the predicate. -/
def updateFirst (p : User → Bool) (f : User → User) : List User → List User
  | [] => []
  | u :: rest => if p u then f u :: rest else u :: updateFirst p f rest

/-- Embeds `/api/register` of `part_003` (both variants are identical):
missing-field check, duplicate-email check, 10-user cap, then a new user
whose `password` field holds `bcrypt.hash(password, 10)`; the hash
function of the external bcrypt library is abstracted as a parameter. -/
def registerB (hash : String → String) (db : Store) (email password : String)
    (now : ℤ) : Except String Store :=
  if email = "" ∨ password = "" then .error "Email and password are required"
  else if (db.users.find? (fun u => u.email = email)).isSome then
    .error "User already exists"
  else if 10 ≤ db.users.length then .error "Maximum user limit reached"
  else
    let newUser : User :=
      { id := "user_" ++ toString now, email := email, password := hash password,
        createdAt := now, lastLogin := now, balance := 0, totalEarnings := 0,
        investments := [], isActive := true, transactions := [] }
    .ok { db with users := db.users ++ [newUser] }

/-- Embeds the mock user objects of `script.js` (localStorage variant). -/
structure MockUser where
  id : String
  email : String
  password : String
  createdAt : ℤ
  balance : ℚ
  totalEarnings : ℚ
  investments : List Investment
deriving Repr, DecidableEq

/-- Embeds `registerUser` of `script.js`: duplicate-email check, 10-user
cap, then a new user whose `password` field holds the submitted password
itself (the source comments the line with the remark that a real app
should hash it). Returns the updated user list and the new user. -/
def registerMock (mockUsers : List MockUser) (email password : String)
    (now : ℤ) : Except String (List MockUser × MockUser) :=
  if (mockUsers.find? (fun u => u.email = email)).isSome then
    .error "User already exists"
  else if 10 ≤ mockUsers.length then .error "Maximum user limit reached"
  else
    let newUser : MockUser :=
      { id := "user_" ++ toString now, email := email, password := password,
        createdAt := now, balance := 0, totalEarnings := 0, investments := [] }
    .ok (mockUsers ++ [newUser], newUser)

/-- Shape of the user object returned by a successful `/api/login`. -/
structure LoginView where
  id : String
  email : String
  balance : ℚ
  totalEarnings : ℚ
  investments : List Investment
deriving Repr, DecidableEq

/-- Embeds `/api/login` of `part_003` (both variants are identical):
missing-field check, lookup by email, active-flag check, then
`bcrypt.compare` (abstracted as the `cmp` parameter); on success the found
user's `lastLogin` is set and the whole store rewritten via
`writeDatabase`. The result is the store after the handler, a flag
recording whether `writeDatabase` was called, and the response. -/
def login (cmp : String → String → Bool) (db : Store) (email password : String)
    (now : ℤ) : Store × Bool × Except String LoginView :=
  if email = "" ∨ password = "" then
    (db, false, .error "Email and password are required")
  else
    match db.users.find? (fun u => u.email = email) with
    | none => (db, false, .error "User not found")
    | some u =>
      if u.isActive = false then (db, false, .error "Account is deactivated")
      else if cmp password u.password = false then
        (db, false, .error "Invalid password")
      else
        let users' := updateFirst (fun v => v.email = email)
          (fun v => { v with lastLogin := now }) db.users
        ({ db with users := users' },
         true,
         .ok { id := u.id, email := u.email, balance := u.balance,
               totalEarnings := u.totalEarnings, investments := u.investments })

/-- Embeds the JavaScript idiom `compoundType || 'monthly'` (missing or
empty compound type falls back to the string monthly). -/
def jsOrMonthly (s : Option String) : String :=
  match s with
  | none => "monthly"
  | some v => if v = "" then "monthly" else v

/-- Shape of a successful `/api/invest` response. -/
structure InvestResult where
  investment : Investment
  newBalance : ℚ
deriving Repr, DecidableEq

/-- Embeds `/api/invest` of `part_003` variant A (and, minus the
transaction record and the extra investment fields, of `part_004`):
falsy-field check, user lookup, amount range check, then
`apy = apyFromTerm(lockPeriod)` on the raw term, a new investment whose
stored `lockPeriod` is `parseInt(lockPeriod)`, balance increase by the
amount, and a deposit transaction record. -/
def investA (db : Store) (userId : String) (amount : ℚ) (lockPeriod : ℚ)
    (compoundType : Option String) (transactionHash : String) (now : ℤ) :
    Except String (Store × InvestResult) :=
  if userId = "" ∨ amount = 0 ∨ lockPeriod = 0 ∨ transactionHash = "" then
    .error "Missing required fields"
  else
    match db.users.find? (fun u => u.id = userId) with
    | none => .error "User not found"
    | some user =>
      if amount < 500 ∨ 1000000 < amount then
        .error "Amount must be between 500 and 1,000,000 USDT"
      else
        let apy := apyFromTerm lockPeriod
        let newInvestment : Investment :=
          { id := "inv_" ++ toString now, userId := userId, amount := amount,
            lockPeriod := jsParseInt lockPeriod,
            compoundType := jsOrMonthly compoundType, apy := apy,
            transactionHash := transactionHash, startDate := now,
            endDate := (now : ℚ) + lockPeriod * 2592000000,
            status := "active", totalEarned := 0, weeklyEarnings := [] }
        let tx : Transaction :=
          { id := "tx_" ++ toString now, txType := "deposit", amount := amount,
            timestamp := now, hash := transactionHash }
        let pushInv : User → User := fun u =>
          { u with balance := u.balance + amount,
                   investments := u.investments ++ [newInvestment],
                   transactions := u.transactions ++ [tx] }
        let users' := updateFirst (fun u => u.id = userId) pushInv db.users
        .ok ({ db with users := users' },
             { investment := newInvestment, newBalance := user.balance + amount })

/-- Embeds `/api/invest` of `part_003` variant B: identical to variant A
except that the APY is computed by the inline expression
`0.30 + ((lockPeriod - 3) / 21) * 1.70`, which does not clamp the term. -/
def investB (db : Store) (userId : String) (amount : ℚ) (lockPeriod : ℚ)
    (compoundType : Option String) (transactionHash : String) (now : ℤ) :
    Except String (Store × InvestResult) :=
  if userId = "" ∨ amount = 0 ∨ lockPeriod = 0 ∨ transactionHash = "" then
    .error "Missing required fields"
  else
    match db.users.find? (fun u => u.id = userId) with
    | none => .error "User not found"
    | some user =>
      if amount < 500 ∨ 1000000 < amount then
        .error "Amount must be between 500 and 1,000,000 USDT"
      else
        let apy := 0.30 + ((lockPeriod - 3) / 21) * 1.70
        let newInvestment : Investment :=
          { id := "inv_" ++ toString now, userId := userId, amount := amount,
            lockPeriod := jsParseInt lockPeriod,
            compoundType := jsOrMonthly compoundType, apy := apy,
            transactionHash := transactionHash, startDate := now,
            endDate := (now : ℚ) + lockPeriod * 2592000000,
            status := "active", totalEarned := 0, weeklyEarnings := [] }
        let tx : Transaction :=
          { id := "tx_" ++ toString now, txType := "deposit", amount := amount,
            timestamp := now, hash := transactionHash }
        let pushInv : User → User := fun u =>
          { u with balance := u.balance + amount,
                   investments := u.investments ++ [newInvestment],
                   transactions := u.transactions ++ [tx] }
        let users' := updateFirst (fun u => u.id = userId) pushInv db.users
        .ok ({ db with users := users' },
             { investment := newInvestment, newBalance := user.balance + amount })

/-- Embeds the `/api/user/:userId` lookup (`users.find(u => u.id === userId)`). -/
def getUser (db : Store) (userId : String) : Option User :=
  db.users.find? (fun u => u.id = userId)

/-- Embeds the week index `Math.floor((now - startDate) / (7*24*60*60*1000))`
recorded by the accrual handlers. -/
def weekIndex (now startDate : ℤ) : ℤ :=
  ⌊((now : ℚ) - (startDate : ℚ)) / 604800000⌋

/-- Embeds the body of the investment loop in `/api/update-earnings` of
`part_003` variant B: an active investment earns
`(investment.amount * investment.apy) / 365`, added to its `totalEarned`,
with one week record pushed; a non-active investment is untouched. The
second component is the delta added to the owner's running totals. -/
def accrueInvB (now : ℤ) (inv : Investment) : Investment × ℚ :=
  if inv.status = "active" then
    let dailyEarnings := inv.amount * inv.apy / 365
    ({ inv with
        totalEarned := inv.totalEarned + dailyEarnings,
        weeklyEarnings := inv.weeklyEarnings ++
          [{ week := weekIndex now inv.startDate, earnings := dailyEarnings,
             timestamp := now }] },
     dailyEarnings)
  else (inv, 0)

/-- Embeds the per-user effect of `/api/update-earnings` of `part_003`
variant B: each investment is accrued and the user's `balance` and
`totalEarnings` grow by the sum of the deltas. -/
def updateEarningsUserB (now : ℤ) (u : User) : User :=
  let results := u.investments.map (accrueInvB now)
  { u with investments := results.map Prod.fst,
           balance := u.balance + (results.map Prod.snd).sum,
           totalEarnings := u.totalEarnings + (results.map Prod.snd).sum }

/-- Embeds `/api/update-earnings` of `part_003` variant B: one manual tick
over every user of the store. -/
def updateEarningsB (now : ℤ) (db : Store) : Store :=
  { db with users := db.users.map (updateEarningsUserB now) }

/-- Embeds the daily rate used by `/api/update-earnings` of `part_003`
variant A: `Math.pow(1 + investment.apy, 1/365) - 1`, a compounded daily
rate derived from the annual APY. -/
noncomputable def dailyRateA (apy : ℝ) : ℝ := (1 + apy) ^ ((1 : ℝ)/365) - 1

/-- Embeds the daily earnings of one active investment under `part_003`
variant A: `investment.amount * dailyRate`. -/
noncomputable def dailyEarningsA (amount apy : ℝ) : ℝ := amount * dailyRateA apy

/-- Shape of a successful `/api/calculate` response. -/
structure CalcResult where
  apyPercent : ℚ
  finalAmount : ℚ
  interest : ℚ
  lockPeriod : ℤ
deriving Repr, DecidableEq

/-- Embeds `/api/calculate` of `part_003` variant A: falsy-field check,
`months = parseInt(lockPeriod)`, amount range check, then
`apy = apyFromTerm(months)` and the final amount — the in-source comment
marks `A = P(1 + r)^n` as the exact formula for the monthly branch, with
`A = P(1 + r*t)`, `t = months/12`, for the simple branch. The exponent is
the integer produced by `parseInt`. -/
def calculate (amount : ℚ) (lockPeriod : ℚ) (compoundType : String) :
    Except String CalcResult :=
  if amount = 0 ∨ lockPeriod = 0 then
    .error "Amount and lock period are required"
  else
    let investmentAmount := amount
    let months := jsParseInt lockPeriod
    if investmentAmount < 500 ∨ 1000000 < investmentAmount then
      .error "Amount must be between 500 and 1,000,000 USDT"
    else
      let apy := apyFromTerm (months : ℚ)
      let finalAmount :=
        if compoundType = "monthly" then investmentAmount * (1 + apy) ^ months
        else investmentAmount * (1 + apy * ((months : ℚ) / 12))
      .ok { apyPercent := apy * 100, finalAmount := finalAmount,
            interest := finalAmount - investmentAmount, lockPeriod := months }

/-- Embeds the shared `calc` of `script.js`, `part_001` and the first
occurrence in `part_002`, restricted to integer month inputs (the term
slider in the page yields integers): amount validation, then
`apy = apyFromTerm(months)` and `A = P(1 + r)^n` for the monthly branch or
`A = P(1 + r * months/12)` for the simple branch. The result triple is
APY percent, final amount and interest. -/
def calcFrontend (principal : ℚ) (months : ℤ) (comp : String) :
    Except String (ℚ × ℚ × ℚ) :=
  if principal < 500 ∨ 1000000 < principal then
    .error "Enter amount between 500 and 1,000,000 USDT."
  else
    let apy := apyFromTerm (months : ℚ)
    let finalAmount :=
      if comp = "monthly" then principal * (1 + apy) ^ months
      else principal * (1 + apy * ((months : ℚ) / 12))
    .ok (apy * 100, finalAmount, finalAmount - principal)

/-- Embeds the monthly branch of the second `calc` occurrence in
`part_002` (around lines 733 to 766): it first derives an effective
monthly rate `Math.pow(1 + apy, 1/12) - 1` and then compounds that rate
over `periods = months`. -/
noncomputable def calcV3Monthly (principal : ℝ) (months : ℚ) : ℝ :=
  let apy : ℝ := ((apyFromTerm months : ℚ) : ℝ)
  let monthlyRate : ℝ := (1 + apy) ^ ((1 : ℝ)/12) - 1
  principal * (1 + monthlyRate) ^ ((months : ℝ))

/-- Embeds a JavaScript number as seen by the amount validation:
finite values, the two infinities, and NaN. -/
inductive JSNum where
  | nan
  | posInf
  | negInf
  | num (q : ℚ)
deriving Repr, DecidableEq

/-- Embeds the JavaScript comparison `x < c` for a number `x` and a finite
constant `c`: every comparison with NaN is false. -/
def jsLt : JSNum → ℚ → Bool
  | .nan, _ => false
  | .posInf, _ => false
  | .negInf, _ => true
  | .num q, c => decide (q < c)

/-- Embeds the JavaScript comparison `x > c` for a number `x` and a finite
constant `c`: every comparison with NaN is false. -/
def jsGt : JSNum → ℚ → Bool
  | .nan, _ => false
  | .posInf, _ => true
  | .negInf, _ => false
  | .num q, c => decide (c < q)

/-- Embeds the amount guard of `/api/invest` (`part_003` lines 201 to 204
and `part_004` lines 137 to 141) on the value `parseFloat(amount)`:
`investmentAmount < 500 || investmentAmount > 1000000`. -/
def amountRejected (x : JSNum) : Bool := jsLt x 500 || jsGt x 1000000

/-- Concrete registered account used to instantiate the ledger theorems. -/
def sampleUser : User :=
  { id := "u1", email := "a@b.c", password := "pwhash", createdAt := 0,
    lastLogin := 0, balance := 0, totalEarnings := 0, investments := [],
    isActive := true, transactions := [] }

/-- Concrete store holding `sampleUser`. -/
def sampleStore : Store :=
  { users := [sampleUser],
    settings := some { wallet_address := defaultWalletAddress } }

/-- C5: the amount guard `investmentAmount < 500 || investmentAmount > 1000000`
rejects the finite out-of-range amounts 499 and 1,000,001 and both
infinities, accepts the boundary amounts 500 and 1,000,000 — but a NaN
amount makes both comparisons false, so NaN is accepted rather than
rejected as the claim requires. -/
theorem amount_check_nan_accepted :
    amountRejected JSNum.nan = false ∧
    amountRejected JSNum.posInf = true ∧
    amountRejected JSNum.negInf = true ∧
    amountRejected (JSNum.num 499) = true ∧
    amountRejected (JSNum.num 500) = false ∧
    amountRejected (JSNum.num 1000000) = false ∧
    amountRejected (JSNum.num 1000001) = true := by
  decide

/-- C9 counterexample: after a corrupt read, variant B's store lacks the
`settings` object, so its wallet-address operation fails (the handler
dereferences an undefined `settings`) instead of returning the configured
address. -/
theorem corrupt_fallback_counterexample :
    walletAddressOp (readDatabaseB none) = none ∧
    walletAddressOp (readDatabaseB none) ≠ some defaultWalletAddress := by
  refine ⟨rfl, by simp [walletAddressOp, readDatabaseB]⟩

/-- C9 amended: variant A recovers from a corrupt store with the full
default store (no users, settings holding the configured wallet address,
which the wallet-address operation then returns), and both variants pass a
successfully parsed store through unchanged; variant B's fallback has an
empty user list but no settings object. -/
theorem corrupt_fallback_amended :
    (readDatabaseA none).users = [] ∧
    walletAddressOp (readDatabaseA none) = some defaultWalletAddress ∧
    (∀ db : Store, readDatabaseA (some db) = db) ∧
    (readDatabaseB none).users = [] ∧
    (readDatabaseB none).settings = none ∧
    (∀ db : Store, readDatabaseB (some db) = db) :=
  ⟨rfl, rfl, fun _ => rfl, rfl, rfl, fun _ => rfl⟩

/-- C8 counterexample: the localStorage variant's `registerUser` stores
the submitted password itself as the credential — registering with
password hunter2 stores exactly the string hunter2, not a hash of it. -/
theorem register_plaintext_counterexample :
    (registerMock [] "a@b.c" "hunter2" 0).toOption.map (fun r => r.2.password)
      = some "hunter2" := by
  rfl

/-- C4 counterexample: variant B's invest handler computes the APY with
the unclamped expression `0.30 + ((lockPeriod - 3) / 21) * 1.70`; at term
100 it stores APY 856/105 (about 815 percent) while the APY curve yields
2.00, so the stored APY does not equal the curve value at the given term. -/
theorem invest_apy_counterexample :
    (investB sampleStore "u1" 1000 100 none "tx" 0).toOption.map
        (fun r => r.2.investment.apy) = some (856/105) ∧
    apyFromTerm 100 = 2 ∧
    (856/105 : ℚ) ≠ 2 := by
  have hfind : sampleStore.users.find? (fun u => u.id = "u1") = some sampleUser := by
    decide
  refine ⟨?_, ?_, by norm_num⟩
  · simp only [investB, hfind]
    rw [if_neg (by decide), if_neg (by norm_num)]
    simp only [Except.toOption, Option.map]
    norm_num
  · norm_num [apyFromTerm, clamp]

/-- C6 counterexample: a successful invest call with requested term 100
stores lock term 100, outside the range from 3 to 24 — the stored term is
kept out-of-range (only the APY computation clamps). -/
theorem stored_term_counterexample :
    (investA sampleStore "u1" 1000 100 none "tx" 0).toOption.map
        (fun r => r.2.investment.lockPeriod) = some 100 ∧
    ¬((100 : ℤ) ≤ 24) := by
  have hfind : sampleStore.users.find? (fun u => u.id = "u1") = some sampleUser := by
    decide
  refine ⟨?_, by norm_num⟩
  simp only [investA, hfind]
  rw [if_neg (by decide), if_neg (by norm_num)]
  simp only [Except.toOption, Option.map]
  norm_num [jsParseInt]

/-- C7 counterexample: the calculate endpoint accepts the non-positive
term minus 5 and the non-integer term 5.5 (truncating the latter to 5),
and the invest handler likewise accepts term minus 5 — no InvalidTerm
rejection exists. -/
theorem term_validation_counterexample :
    (calculate 1000 (-5) "monthly").isOk = true ∧
    (calculate 1000 (11/2) "monthly").toOption.map (fun r => r.lockPeriod)
      = some 5 ∧
    (investA sampleStore "u1" 1000 (-5) none "tx" 0).isOk = true := by
  have hfind : sampleStore.users.find? (fun u => u.id = "u1") = some sampleUser := by
    decide
  refine ⟨?_, ?_, ?_⟩
  · simp only [calculate]
    rw [if_neg (by norm_num), if_neg (by norm_num)]
    rfl
  · simp only [calculate]
    rw [if_neg (by norm_num), if_neg (by norm_num)]
    simp only [Except.toOption, Option.map, Option.some.injEq]
    norm_num [jsParseInt]
  · simp only [investA, hfind]
    rw [if_neg (by decide), if_neg (by norm_num)]
    rfl

theorem updateFirst_map {α : Type} (p : User → Bool) (f : User → User)
    (g : User → α) (hg : ∀ u, g (f u) = g u) :
    ∀ l : List User, (updateFirst p f l).map g = l.map g := by
  intro l
  induction l with
  | nil => rfl
  | cons u rest ih =>
    simp only [updateFirst]
    split
    · simp [hg]
    · simp [ih]

theorem updateFirst_find (p : User → Bool) (f : User → User)
    (hp : ∀ u, p (f u) = p u) :
    ∀ l : List User, (updateFirst p f l).find? p = (l.find? p).map f := by
  intro l
  induction l with
  | nil => rfl
  | cons u rest ih =>
    simp only [updateFirst]
    by_cases h : p u
    · simp [List.find?_cons, h, hp]
    · simp [List.find?_cons, h, ih]

theorem updateFirst_find_other (p q : User → Bool) (f : User → User)
    (hpq : ∀ u, p u = true → q u = false) (hq : ∀ u, q (f u) = q u) :
    ∀ l : List User, (updateFirst p f l).find? q = l.find? q := by
  intro l
  induction l with
  | nil => rfl
  | cons u rest ih =>
    simp only [updateFirst]
    by_cases h : p u
    · have hqu : q u = false := hpq u h
      have hqfu : q (f u) = false := by rw [hq]; exact hqu
      simp [List.find?_cons, h, hqu, hqfu]
    · by_cases h2 : q u
      · simp [List.find?_cons, h, h2]
      · simp [List.find?_cons, h, h2, ih]

theorem updateFirst_forall2 {R : List Investment → List Investment → Prop}
    (p : User → Bool) (f : User → User)
    (h1 : ∀ u : User, R u.investments u.investments)
    (h2 : ∀ u : User, R u.investments (f u).investments) :
    ∀ l : List User,
      List.Forall₂ R (l.map (fun u => u.investments))
        ((updateFirst p f l).map (fun u => u.investments)) := by
  intro l
  induction l with
  | nil => exact List.Forall₂.nil
  | cons u rest ih =>
    simp only [updateFirst]
    split
    · refine List.Forall₂.cons (h2 u) ?_
      rw [List.forall₂_same]
      intro x hx
      obtain ⟨u2, _, rfl⟩ := List.mem_map.mp hx
      exact h1 u2
    · exact List.Forall₂.cons (h1 u) ih

/-- C8 amended: the backend register handlers store the bcrypt hash of the
submitted password as the credential (the hash function of the external
library is abstracted); the localStorage mock variant in `script.js`
instead stores the submitted password itself. -/
theorem register_credential_amended :
    (∀ (hash : String → String) (db : Store) (email pw : String) (now : ℤ)
       (st : Store), registerB hash db email pw now = .ok st →
       st.users.map (fun u => u.password) =
         db.users.map (fun u => u.password) ++ [hash pw]) ∧
    (∀ (us : List MockUser) (email pw : String) (now : ℤ)
       (res : List MockUser × MockUser),
       registerMock us email pw now = .ok res →
       res.2.password = pw ∧
       res.1.map (fun u => u.password) = us.map (fun u => u.password) ++ [pw]) := by
  constructor
  · intro hash db email pw now st h
    unfold registerB at h
    split at h
    · exact absurd h (by simp)
    split at h
    · exact absurd h (by simp)
    split at h
    · exact absurd h (by simp)
    · simp only [Except.ok.injEq] at h
      subst h
      simp
  · intro us email pw now res h
    unfold registerMock at h
    split at h
    · exact absurd h (by simp)
    split at h
    · exact absurd h (by simp)
    · simp only [Except.ok.injEq] at h
      subst h
      simp

/-- Concrete user produced by the mock registration in the witness below. -/
def mockRegUser : MockUser :=
  { id := "user_" ++ toString (0 : ℤ), email := "a@b.c", password := "pw",
    createdAt := 0, balance := 0, totalEarnings := 0, investments := [] }

/-- Witness for `register_credential_amended`: the mock branch applied to
a concrete registration on an empty user list. -/
theorem register_credential_amended_witness :
    mockRegUser.password = "pw" ∧
    [mockRegUser].map (fun u => u.password) =
      ([] : List MockUser).map (fun u => u.password) ++ ["pw"] :=
  register_credential_amended.2 [] "a@b.c" "pw" 0 ([mockRegUser], mockRegUser) rfl

/-- C10: a successful login is not read-only — it rewrites the store with
the first email-matching user's `lastLogin` set to the current time, while
preserving the settings and every user's balance, total earnings,
investments and email; every failed login (missing field, unknown email,
deactivated account or failed credential check) returns without writing
and leaves the store exactly as it was. -/
theorem login_frame_effect :
    ∀ (cmp : String → String → Bool) (db : Store) (email password : String)
      (now : ℤ),
      ((login cmp db email password now).2.2.isOk = false →
        (login cmp db email password now).1 = db ∧
        (login cmp db email password now).2.1 = false) ∧
      ((login cmp db email password now).2.2.isOk = true →
        (login cmp db email password now).2.1 = true ∧
        (login cmp db email password now).1.settings = db.settings ∧
        (login cmp db email password now).1.users =
          updateFirst (fun v => v.email = email)
            (fun v => { v with lastLogin := now }) db.users ∧
        (login cmp db email password now).1.users.map (fun u => u.balance) =
          db.users.map (fun u => u.balance) ∧
        (login cmp db email password now).1.users.map (fun u => u.totalEarnings) =
          db.users.map (fun u => u.totalEarnings) ∧
        (login cmp db email password now).1.users.map (fun u => u.investments) =
          db.users.map (fun u => u.investments) ∧
        (login cmp db email password now).1.users.map (fun u => u.email) =
          db.users.map (fun u => u.email) ∧
        ((login cmp db email password now).1.users.find?
            (fun u => u.email = email)).map (fun u => u.lastLogin) = some now) := by
  intro cmp db email password now
  unfold login
  split
  · exact ⟨fun _ => ⟨rfl, rfl⟩, fun h => absurd h (by simp [Except.isOk, Except.toBool])⟩
  · split
    · exact ⟨fun _ => ⟨rfl, rfl⟩, fun h => absurd h (by simp [Except.isOk, Except.toBool])⟩
    · rename_i u hfind
      split
      · exact ⟨fun _ => ⟨rfl, rfl⟩, fun h => absurd h (by simp [Except.isOk, Except.toBool])⟩
      split
      · exact ⟨fun _ => ⟨rfl, rfl⟩, fun h => absurd h (by simp [Except.isOk, Except.toBool])⟩
      · refine ⟨fun h => absurd h (by simp [Except.isOk, Except.toBool]), fun _ => ?_⟩
        refine ⟨rfl, rfl, rfl, ?_, ?_, ?_, ?_, ?_⟩
        · exact updateFirst_map (fun v => v.email = email)
            (fun v => { v with lastLogin := now }) (fun u => u.balance)
            (fun v => rfl) db.users
        · exact updateFirst_map (fun v => v.email = email)
            (fun v => { v with lastLogin := now }) (fun u => u.totalEarnings)
            (fun v => rfl) db.users
        · exact updateFirst_map (fun v => v.email = email)
            (fun v => { v with lastLogin := now }) (fun u => u.investments)
            (fun v => rfl) db.users
        · exact updateFirst_map (fun v => v.email = email)
            (fun v => { v with lastLogin := now }) (fun u => u.email)
            (fun v => rfl) db.users
        · show Option.map (fun u => u.lastLogin)
              ((updateFirst (fun v => v.email = email)
                (fun v => { v with lastLogin := now }) db.users).find?
                  (fun v => v.email = email)) = some now
          rw [updateFirst_find (fun v => v.email = email)
            (fun v => { v with lastLogin := now }) (fun v => rfl) db.users, hfind]
          rfl

/-- Comparison function instantiating the abstract bcrypt check in the
witness below. -/
def eqCmp : String → String → Bool := fun a b => a == b

/-- Witness for `login_frame_effect`: the success branch applied to a
concrete login against `sampleStore` with the matching credential. -/
theorem login_frame_effect_witness :
    (login eqCmp sampleStore "a@b.c" "pwhash" 99).2.2.isOk = true ∧
    ((login eqCmp sampleStore "a@b.c" "pwhash" 99).2.1 = true ∧
     (login eqCmp sampleStore "a@b.c" "pwhash" 99).1.settings = sampleStore.settings ∧
     (login eqCmp sampleStore "a@b.c" "pwhash" 99).1.users =
       updateFirst (fun v => v.email = "a@b.c")
         (fun v => { v with lastLogin := 99 }) sampleStore.users ∧
     (login eqCmp sampleStore "a@b.c" "pwhash" 99).1.users.map (fun u => u.balance) =
       sampleStore.users.map (fun u => u.balance) ∧
     (login eqCmp sampleStore "a@b.c" "pwhash" 99).1.users.map (fun u => u.totalEarnings) =
       sampleStore.users.map (fun u => u.totalEarnings) ∧
     (login eqCmp sampleStore "a@b.c" "pwhash" 99).1.users.map (fun u => u.investments) =
       sampleStore.users.map (fun u => u.investments) ∧
     (login eqCmp sampleStore "a@b.c" "pwhash" 99).1.users.map (fun u => u.email) =
       sampleStore.users.map (fun u => u.email) ∧
     ((login eqCmp sampleStore "a@b.c" "pwhash" 99).1.users.find?
         (fun u => u.email = "a@b.c")).map (fun u => u.lastLogin) = some 99) :=
  ⟨by decide,
   (login_frame_effect eqCmp sampleStore "a@b.c" "pwhash" 99).2 (by decide)⟩

/-- Sum of the per-tick deltas of a user's active investments under the
variant B accrual formula. -/
def activeDailyDelta (u : User) : ℚ :=
  ((u.investments.filter (fun i => i.status = "active")).map
    (fun i => i.amount * i.apy / 365)).sum

theorem accrue_delta_sum (now : ℤ) :
    ∀ invs : List Investment,
      ((invs.map (accrueInvB now)).map Prod.snd).sum =
        ((invs.filter (fun i => i.status = "active")).map
          (fun i => i.amount * i.apy / 365)).sum := by
  intro invs
  induction invs with
  | nil => rfl
  | cons i rest ih =>
    by_cases h : i.status = "active"
    · simp [List.filter_cons, accrueInvB, h]
      simpa using ih
    · simp [List.filter_cons, accrueInvB, h]
      simpa using ih

/-- C3 amended: under the variant B accrual (`part_003` lines 673 to 707)
one tick gives every active investment the simple pro-rated delta
`amount * apy / 365`, adds exactly that delta to its `totalEarned`, appends
exactly one period record carrying the delta, leaves its other fields
unchanged, leaves non-active investments completely unchanged, adds the
sum of the active deltas to the owner's balance and total earnings (so a
user whose investments are all non-active is wholly unchanged), and leaves
the settings unchanged. Variant A (`part_003` lines 292 to 329) instead
uses the compounded daily rate — see the counterexample. -/
theorem accrual_tick_amended :
    (∀ (now : ℤ) (inv : Investment), inv.status = "active" →
       (accrueInvB now inv).2 = inv.amount * inv.apy / 365 ∧
       (accrueInvB now inv).1.totalEarned =
         inv.totalEarned + inv.amount * inv.apy / 365 ∧
       (accrueInvB now inv).1.weeklyEarnings = inv.weeklyEarnings ++
         [{ week := weekIndex now inv.startDate,
            earnings := inv.amount * inv.apy / 365, timestamp := now }] ∧
       (accrueInvB now inv).1.apy = inv.apy ∧
       (accrueInvB now inv).1.amount = inv.amount ∧
       (accrueInvB now inv).1.status = inv.status) ∧
    (∀ (now : ℤ) (inv : Investment), inv.status ≠ "active" →
       accrueInvB now inv = (inv, 0)) ∧
    (∀ (now : ℤ) (u : User),
       (updateEarningsUserB now u).balance = u.balance + activeDailyDelta u ∧
       (updateEarningsUserB now u).totalEarnings =
         u.totalEarnings + activeDailyDelta u ∧
       (updateEarningsUserB now u).investments =
         u.investments.map (fun i => (accrueInvB now i).1)) ∧
    (∀ (now : ℤ) (u : User), (∀ i ∈ u.investments, i.status ≠ "active") →
       updateEarningsUserB now u = u) ∧
    (∀ (now : ℤ) (db : Store),
       (updateEarningsB now db).users = db.users.map (updateEarningsUserB now) ∧
       (updateEarningsB now db).settings = db.settings) := by
  refine ⟨?_, ?_, ?_, ?_, fun now db => ⟨rfl, rfl⟩⟩
  · intro now inv h
    simp only [accrueInvB, h]
    exact ⟨rfl, rfl, rfl, rfl, rfl, by simp⟩
  · intro now inv h
    simp only [accrueInvB, h]
    simp
  · intro now u
    refine ⟨?_, ?_, ?_⟩
    · show u.balance + ((u.investments.map (accrueInvB now)).map Prod.snd).sum =
        u.balance + activeDailyDelta u
      rw [accrue_delta_sum]
      rfl
    · show u.totalEarnings + ((u.investments.map (accrueInvB now)).map Prod.snd).sum =
        u.totalEarnings + activeDailyDelta u
      rw [accrue_delta_sum]
      rfl
    · show (u.investments.map (accrueInvB now)).map Prod.fst =
        u.investments.map (fun i => (accrueInvB now i).1)
      rw [List.map_map]
      rfl
  · intro now u h
    have hid : ∀ i ∈ u.investments, accrueInvB now i = (i, 0) := by
      intro i hi
      simp [accrueInvB, h i hi]
    have hmap : u.investments.map (accrueInvB now) =
        u.investments.map (fun i => (i, 0)) :=
      List.map_congr_left hid
    have hsum : ∀ l : List Investment,
        ((l.map (fun i => (i, (0:ℚ)))).map Prod.snd).sum = 0 := by
      intro l
      induction l with
      | nil => rfl
      | cons a t ih => simpa using ih
    have hfst : ∀ l : List Investment,
        (l.map (fun i => (i, (0:ℚ)))).map Prod.fst = l := by
      intro l
      induction l with
      | nil => rfl
      | cons a t ih => simpa using ih
    unfold updateEarningsUserB
    rw [hmap]
    show ({ u with
        investments := ((u.investments.map (fun i => (i, (0:ℚ)))).map Prod.fst),
        balance := u.balance +
          ((u.investments.map (fun i => (i, (0:ℚ)))).map Prod.snd).sum,
        totalEarnings := u.totalEarnings +
          ((u.investments.map (fun i => (i, (0:ℚ)))).map Prod.snd).sum } : User) = u
    rw [hsum u.investments, hfst u.investments]
    cases u
    simp

/-- Concrete closed investment and its owner, used to instantiate the
all-inactive component of the accrual theorem. -/
def closedInv : Investment :=
  { id := "inv_9", userId := "u2", amount := 700, lockPeriod := 6,
    compoundType := "monthly", apy := 0.30, transactionHash := "tx9",
    startDate := 0, endDate := 0, status := "closed", totalEarned := 0,
    weeklyEarnings := [] }

/-- Owner of `closedInv`. -/
def closedUser : User :=
  { id := "u2", email := "c@d.e", password := "pwhash2", createdAt := 0,
    lastLogin := 0, balance := 700, totalEarnings := 0,
    investments := [closedInv], isActive := true, transactions := [] }

/-- Witness for `accrual_tick_amended`: a user whose only investment is
closed is untouched by a tick. -/
theorem accrual_tick_amended_witness :
    updateEarningsUserB 5 closedUser = closedUser :=
  accrual_tick_amended.2.2.2.1 5 closedUser (by decide)

theorem bernoulli_root_lt :
    (1.3 : ℝ) ^ ((1 : ℝ)/365) < 1 + 3/3650 := by
  have hb : (1.3 : ℝ) < (1 + 3/3650) ^ (365 : ℕ) := by
    have h1 : (1 : ℝ) + 364 * (3/3650) ≤ (1 + 3/3650) ^ (364 : ℕ) := by
      simpa using one_add_mul_le_pow (a := (3/3650 : ℝ)) (by norm_num) 364
    have h2 : ((1 : ℝ) + 3/3650) ^ (365 : ℕ) =
        (1 + 3/3650) ^ (364 : ℕ) * (1 + 3/3650) := by
      ring
    nlinarith [h1]
  have h3 : (1.3 : ℝ) ^ ((1 : ℝ)/365) <
      (((1 : ℝ) + 3/3650) ^ (365 : ℕ)) ^ ((1 : ℝ)/365) :=
    Real.rpow_lt_rpow (by norm_num) hb (by norm_num)
  have h4 : (((1 : ℝ) + 3/3650) ^ (365 : ℕ)) ^ ((1 : ℝ)/365) = 1 + 3/3650 := by
    rw [← Real.rpow_natCast ((1 : ℝ) + 3/3650) 365,
      ← Real.rpow_mul (by norm_num : (0 : ℝ) ≤ 1 + 3/3650)]
    norm_num
  rw [h4] at h3
  exact h3

/-- C3 counterexample: variant A's accrual uses the compounded daily rate
`(1 + apy)^(1/365) - 1`; at principal 1000 and APY 0.30 its daily earnings
differ from the simple pro-rated share `1000 * 0.30 / 365` that the claim
specifies (they are strictly smaller). -/
theorem accrual_rate_counterexample :
    dailyEarningsA 1000 0.3 ≠ 1000 * (0.3 / 365 : ℝ) := by
  have hroot := bernoulli_root_lt
  have hlt : dailyEarningsA 1000 0.3 < 1000 * (0.3 / 365 : ℝ) := by
    unfold dailyEarningsA dailyRateA
    have h13 : ((1 : ℝ) + 0.3) = 1.3 := by norm_num
    rw [h13]
    nlinarith [hroot]
  exact ne_of_lt hlt

theorem apyFromTerm_twelve : apyFromTerm 12 = 36/35 := by
  norm_num [apyFromTerm, clamp]

/-- C1 counterexample: the second `calc` occurrence in `part_002` does not
compute `principal * (1 + apy)^months` in monthly mode — at principal 1000
and 12 months it first derives the effective monthly rate and its result
collapses to `1000 * (1 + apy)`, strictly below `1000 * (1 + apy)^12`. -/
theorem monthly_formula_counterexample :
    calcV3Monthly 1000 12 ≠
      1000 * (1 + ((apyFromTerm 12 : ℚ) : ℝ)) ^ (12 : ℕ) := by
  have ha : ((apyFromTerm 12 : ℚ) : ℝ) = 36/35 := by
    rw [apyFromTerm_twelve]
    push_cast
    norm_num
  have hv : calcV3Monthly 1000 12 = 1000 * (71/35 : ℝ) := by
    unfold calcV3Monthly
    rw [ha]
    show (1000 : ℝ) * (1 + ((1 + 36/35) ^ ((1 : ℝ)/12) - 1)) ^ (((12 : ℚ) : ℝ)) =
      1000 * (71/35 : ℝ)
    have h1 : (1 : ℝ) + ((1 + 36/35) ^ ((1 : ℝ)/12) - 1) =
        ((71/35 : ℝ)) ^ ((1 : ℝ)/12) := by
      norm_num
    rw [h1]
    have h2 : (((71/35 : ℝ)) ^ ((1 : ℝ)/12)) ^ (((12 : ℚ) : ℝ)) = 71/35 := by
      rw [show (((12 : ℚ) : ℝ)) = (12 : ℝ) by norm_num,
        ← Real.rpow_mul (by norm_num : (0 : ℝ) ≤ 71/35)]
      norm_num
    rw [h2]
  rw [hv, ha]
  have hpow : (1 + (36/35 : ℝ)) = 71/35 := by norm_num
  rw [hpow]
  have hlt : (71/35 : ℝ) < (71/35 : ℝ) ^ (12 : ℕ) := by
    calc (71/35 : ℝ) = (71/35 : ℝ) ^ (1 : ℕ) := (pow_one _).symm
    _ < (71/35 : ℝ) ^ (12 : ℕ) := by
        apply pow_lt_pow_right₀ (by norm_num) (by norm_num)
  have : 1000 * (71/35 : ℝ) < 1000 * (71/35 : ℝ) ^ (12 : ℕ) := by nlinarith [hlt]
  exact ne_of_lt this

theorem jsParseInt_intCast (m : ℤ) : jsParseInt (m : ℚ) = m := by
  unfold jsParseInt
  split
  · exact Int.floor_intCast m
  · exact Int.ceil_intCast m

theorem investA_ok {db : Store} {uid : String} {amt lp : ℚ} {ct : Option String}
    {tx : String} {now : ℤ} {st : Store} {r : InvestResult}
    (h : investA db uid amt lp ct tx now = .ok (st, r)) :
    r.investment.apy = apyFromTerm lp ∧
    r.investment.lockPeriod = jsParseInt lp ∧
    st.settings = db.settings ∧
    ∃ f : User → User, st.users = updateFirst (fun u => u.id = uid) f db.users ∧
      (∀ u, (f u).id = u.id) ∧ (∀ u, (f u).email = u.email) ∧
      (∀ u, (f u).investments = u.investments ++ [r.investment]) := by
  unfold investA at h
  split at h
  · exact absurd h (by simp)
  · split at h
    · exact absurd h (by simp)
    · split at h
      · exact absurd h (by simp)
      · simp only [Except.ok.injEq, Prod.mk.injEq] at h
        obtain ⟨hst, hr⟩ := h
        subst hst
        subst hr
        refine ⟨rfl, rfl, rfl, ?_⟩
        exact ⟨_, rfl, fun u => rfl, fun u => rfl, fun u => rfl⟩

theorem investB_ok {db : Store} {uid : String} {amt lp : ℚ} {ct : Option String}
    {tx : String} {now : ℤ} {st : Store} {r : InvestResult}
    (h : investB db uid amt lp ct tx now = .ok (st, r)) :
    r.investment.apy = 0.30 + ((lp - 3) / 21) * 1.70 ∧
    r.investment.lockPeriod = jsParseInt lp ∧
    st.settings = db.settings ∧
    ∃ f : User → User, st.users = updateFirst (fun u => u.id = uid) f db.users ∧
      (∀ u, (f u).id = u.id) ∧ (∀ u, (f u).email = u.email) ∧
      (∀ u, (f u).investments = u.investments ++ [r.investment]) := by
  unfold investB at h
  split at h
  · exact absurd h (by simp)
  · split at h
    · exact absurd h (by simp)
    · split at h
      · exact absurd h (by simp)
      · simp only [Except.ok.injEq, Prod.mk.injEq] at h
        obtain ⟨hst, hr⟩ := h
        subst hst
        subst hr
        refine ⟨rfl, rfl, rfl, ?_⟩
        exact ⟨_, rfl, fun u => rfl, fun u => rfl, fun u => rfl⟩

/-- C1 amended: for valid amounts and nonzero integer terms, the shared
frontend `calc` (`script.js`, `part_001`, first occurrence in `part_002`)
and the `part_003` calculate endpoint return
`final = principal * (1 + apy)^months` in monthly mode and
`final = principal * (1 + apy * months/12)` in simple mode, with
`interest = final - principal`; the second `calc` occurrence in `part_002`
instead returns `principal * (1 + apy)^(months/12)` in monthly mode, by
first converting the annual rate to an effective monthly rate. -/
theorem return_projection_amended :
    (∀ (p : ℚ) (m : ℤ), 500 ≤ p → p ≤ 1000000 →
      calcFrontend p m "monthly" =
        .ok (apyFromTerm (m : ℚ) * 100, p * (1 + apyFromTerm (m : ℚ)) ^ m,
             p * (1 + apyFromTerm (m : ℚ)) ^ m - p) ∧
      calcFrontend p m "simple" =
        .ok (apyFromTerm (m : ℚ) * 100,
             p * (1 + apyFromTerm (m : ℚ) * ((m : ℚ) / 12)),
             p * (1 + apyFromTerm (m : ℚ) * ((m : ℚ) / 12)) - p)) ∧
    (∀ (p : ℚ) (m : ℤ), 500 ≤ p → p ≤ 1000000 → m ≠ 0 →
      calculate p (m : ℚ) "monthly" =
        .ok { apyPercent := apyFromTerm (m : ℚ) * 100,
              finalAmount := p * (1 + apyFromTerm (m : ℚ)) ^ m,
              interest := p * (1 + apyFromTerm (m : ℚ)) ^ m - p,
              lockPeriod := m } ∧
      calculate p (m : ℚ) "simple" =
        .ok { apyPercent := apyFromTerm (m : ℚ) * 100,
              finalAmount := p * (1 + apyFromTerm (m : ℚ) * ((m : ℚ) / 12)),
              interest := p * (1 + apyFromTerm (m : ℚ) * ((m : ℚ) / 12)) - p,
              lockPeriod := m }) ∧
    (∀ (p : ℝ) (m : ℚ),
      calcV3Monthly p m =
        p * (1 + ((apyFromTerm m : ℚ) : ℝ)) ^ ((m : ℝ) / 12)) := by
  refine ⟨?_, ?_, ?_⟩
  · intro p m hp1 hp2
    constructor
    · simp only [calcFrontend]
      rw [if_neg (by push_neg; exact ⟨by linarith, by linarith⟩)]
      simp
    · simp only [calcFrontend]
      rw [if_neg (by push_neg; exact ⟨by linarith, by linarith⟩)]
      simp
  · intro p m hp1 hp2 hm
    constructor
    · simp only [calculate]
      rw [if_neg (by push_neg; exact ⟨by linarith, by exact_mod_cast hm⟩),
        if_neg (by push_neg; exact ⟨by linarith, by linarith⟩),
        jsParseInt_intCast]
      simp
    · simp only [calculate]
      rw [if_neg (by push_neg; exact ⟨by linarith, by exact_mod_cast hm⟩),
        if_neg (by push_neg; exact ⟨by linarith, by linarith⟩),
        jsParseInt_intCast]
      simp
  · intro p m
    unfold calcV3Monthly
    show p * (1 + ((1 + ((apyFromTerm m : ℚ) : ℝ)) ^ ((1 : ℝ)/12) - 1)) ^
        (((m : ℚ) : ℝ)) = p * (1 + ((apyFromTerm m : ℚ) : ℝ)) ^ ((m : ℝ) / 12)
    have h0 : (0 : ℝ) ≤ 1 + ((apyFromTerm m : ℚ) : ℝ) := by
      have hq := apyFromTerm_lower m
      have hr : ((0.30 : ℚ) : ℝ) ≤ ((apyFromTerm m : ℚ) : ℝ) := by exact_mod_cast hq
      have h03 : ((0.30 : ℚ) : ℝ) = 0.3 := by norm_num
      nlinarith [hr]
    have h1 : (1 : ℝ) + ((1 + ((apyFromTerm m : ℚ) : ℝ)) ^ ((1 : ℝ)/12) - 1) =
        (1 + ((apyFromTerm m : ℚ) : ℝ)) ^ ((1 : ℝ)/12) := by ring
    rw [h1, ← Real.rpow_mul h0]
    congr 1
    ring_nf

/-- Witness for `return_projection_amended`: the frontend monthly formula
applied at principal 1000 over 12 months. -/
theorem return_projection_amended_witness :
    calcFrontend 1000 12 "monthly" =
      .ok (apyFromTerm ((12 : ℤ) : ℚ) * 100,
           1000 * (1 + apyFromTerm ((12 : ℤ) : ℚ)) ^ (12 : ℤ),
           1000 * (1 + apyFromTerm ((12 : ℤ) : ℚ)) ^ (12 : ℤ) - 1000) :=
  (return_projection_amended.1 1000 12 (by norm_num) (by norm_num)).1

/-- C6 amended: a successful invest call stores `parseInt(lockPeriod)` as
the lock term, with no clamping — the stored term equals the truncated
requested term and can lie outside the range from 3 to 24 (see the
counterexample at term 100); only when the requested term already lies in
that range is the stored term guaranteed to lie in it too. -/
theorem stored_term_amended :
    (∀ (db : Store) (uid : String) (amt lp : ℚ) (ct : Option String)
       (tx : String) (now : ℤ) (st : Store) (r : InvestResult),
       investA db uid amt lp ct tx now = .ok (st, r) →
       r.investment.lockPeriod = jsParseInt lp) ∧
    (∀ (db : Store) (uid : String) (amt lp : ℚ) (ct : Option String)
       (tx : String) (now : ℤ) (st : Store) (r : InvestResult),
       investB db uid amt lp ct tx now = .ok (st, r) →
       r.investment.lockPeriod = jsParseInt lp) ∧
    (∀ q : ℚ, 3 ≤ q → q ≤ 24 → 3 ≤ jsParseInt q ∧ jsParseInt q ≤ 24) := by
  refine ⟨?_, ?_, ?_⟩
  · intro db uid amt lp ct tx now st r h
    exact (investA_ok h).2.1
  · intro db uid amt lp ct tx now st r h
    exact (investB_ok h).2.1
  · intro q h1 h2
    have h0 : (0 : ℚ) ≤ q := by linarith
    unfold jsParseInt
    rw [if_pos h0]
    constructor
    · exact Int.le_floor.mpr (by exact_mod_cast h1)
    · have := Int.floor_le_floor (α := ℚ) h2
      simpa using this

/-- Witness for `stored_term_amended`: the in-range component applied at
term 10. -/
theorem stored_term_amended_witness :
    3 ≤ jsParseInt 10 ∧ jsParseInt 10 ≤ 24 :=
  stored_term_amended.2.2 10 (by norm_num) (by norm_num)

/-- C7 amended: no InvalidTerm check exists — whenever the amount is in
range and the term is nonzero (a zero term is rejected only by the
falsy missing-field check), the calculate endpoint succeeds, and the
invest handler succeeds for any such term whenever the user exists and
the other required fields are non-empty, whether or not the term is a
positive integer. -/
theorem term_validation_amended :
    (∀ (p t : ℚ) (comp : String), 500 ≤ p → p ≤ 1000000 → t ≠ 0 →
       (calculate p t comp).isOk = true) ∧
    (∀ (db : Store) (uid : String) (amt lp : ℚ) (ct : Option String)
       (tx : String) (now : ℤ),
       uid ≠ "" → 500 ≤ amt → amt ≤ 1000000 → lp ≠ 0 → tx ≠ "" →
       (db.users.find? (fun u => u.id = uid)).isSome = true →
       (investA db uid amt lp ct tx now).isOk = true) := by
  constructor
  · intro p t comp hp1 hp2 ht
    simp only [calculate]
    rw [if_neg (by push_neg; exact ⟨by linarith, ht⟩),
      if_neg (by push_neg; exact ⟨by linarith, by linarith⟩)]
    rfl
  · intro db uid amt lp ct tx now huid h1 h2 hlp htx hu
    obtain ⟨user, huser⟩ := Option.isSome_iff_exists.mp hu
    simp only [investA, huser]
    rw [if_neg ?hmiss, if_neg (by push_neg; exact ⟨by linarith, by linarith⟩)]
    · rfl
    case hmiss =>
      push_neg
      exact ⟨huid, by linarith, hlp, htx⟩

/-- Witness for `term_validation_amended`: the calculate component applied
at amount 1000 and term 7. -/
theorem term_validation_amended_witness :
    (calculate 1000 7 "monthly").isOk = true :=
  term_validation_amended.1 1000 7 "monthly" (by norm_num) (by norm_num)
    (by norm_num)

theorem accrueInvB_apy (now : ℤ) (i : Investment) :
    (accrueInvB now i).1.apy = i.apy := by
  unfold accrueInvB
  split <;> rfl

theorem updateEarningsUserB_apyMap (now : ℤ) (u : User) :
    (updateEarningsUserB now u).investments.map (fun i => i.apy) =
      u.investments.map (fun i => i.apy) := by
  show ((u.investments.map (accrueInvB now)).map Prod.fst).map (fun i => i.apy) =
    u.investments.map (fun i => i.apy)
  rw [List.map_map, List.map_map]
  exact List.map_congr_left (fun i _ => accrueInvB_apy now i)

/-- C4 amended: a variant A invest stamps exactly the APY-curve value of
the requested term onto the stored investment, and fetching the account
afterwards returns the owner's previous APY list extended by exactly that
value while every other account is untouched; a variant B invest instead
stamps the unclamped linear value `0.30 + ((term - 3)/21) * 1.70`, which
agrees with the curve exactly on terms between 3 and 24; and no later
operation drifts a stored APY — an accrual tick and a login both preserve
every stored investment's APY. -/
theorem invest_apy_roundtrip_amended :
    (∀ (db : Store) (uid : String) (amt lp : ℚ) (ct : Option String)
       (tx : String) (now : ℤ) (st : Store) (r : InvestResult),
       investA db uid amt lp ct tx now = .ok (st, r) →
       r.investment.apy = apyFromTerm lp ∧
       (getUser st uid).map (fun u => u.investments.map (fun i => i.apy)) =
         (getUser db uid).map
           (fun u => u.investments.map (fun i => i.apy) ++ [apyFromTerm lp]) ∧
       (∀ uid2 : String, uid2 ≠ uid → getUser st uid2 = getUser db uid2)) ∧
    (∀ (db : Store) (uid : String) (amt lp : ℚ) (ct : Option String)
       (tx : String) (now : ℤ) (st : Store) (r : InvestResult),
       investB db uid amt lp ct tx now = .ok (st, r) →
       r.investment.apy = 0.30 + ((lp - 3) / 21) * 1.70) ∧
    (∀ t : ℚ, 3 ≤ t → t ≤ 24 →
       0.30 + ((t - 3) / 21) * 1.70 = apyFromTerm t) ∧
    (∀ (now : ℤ) (db : Store),
       (updateEarningsB now db).users.map
           (fun u => u.investments.map (fun i => i.apy)) =
         db.users.map (fun u => u.investments.map (fun i => i.apy))) ∧
    (∀ (cmp : String → String → Bool) (db : Store) (email pw : String)
       (now : ℤ),
       (login cmp db email pw now).1.users.map (fun u => u.investments) =
         db.users.map (fun u => u.investments)) := by
  refine ⟨?_, ?_, ?_, ?_, ?_⟩
  · intro db uid amt lp ct tx now st r h
    obtain ⟨hapy, hlock, hset, f, husers, hfid, hfemail, hfinv⟩ := investA_ok h
    refine ⟨hapy, ?_, ?_⟩
    · unfold getUser
      rw [husers,
        updateFirst_find (fun u => u.id = uid) f (fun u => by simp [hfid u]) db.users]
      cases hdb : db.users.find? (fun u => u.id = uid) with
      | none => rfl
      | some u0 => simp [hfinv u0, hapy]
    · intro uid2 hne
      unfold getUser
      rw [husers]
      apply updateFirst_find_other
      · intro u hpu
        have hid2 : u.id = uid := of_decide_eq_true hpu
        exact decide_eq_false (by rw [hid2]; exact fun hc => hne hc.symm)
      · intro u
        simp [hfid u]
  · intro db uid amt lp ct tx now st r h
    exact (investB_ok h).1
  · intro t h1 h2
    show (0.30 : ℚ) + ((t - 3) / 21) * 1.70 =
      0.30 + (clamp t 3 24 - 3) / (24 - 3) * (2.00 - 0.30)
    rw [clamp_of_mem h1 h2]
    norm_num
  · intro now db
    show (db.users.map (updateEarningsUserB now)).map
        (fun u => u.investments.map (fun i => i.apy)) =
      db.users.map (fun u => u.investments.map (fun i => i.apy))
    rw [List.map_map]
    exact List.map_congr_left (fun u _ => updateEarningsUserB_apyMap now u)
  · intro cmp db email pw now
    unfold login
    split
    · rfl
    · split
      · rfl
      · split
        · rfl
        split
        · rfl
        · exact updateFirst_map (fun v => v.email = email)
            (fun v => { v with lastLogin := now }) (fun u => u.investments)
            (fun v => rfl) db.users

/-- Witness for `invest_apy_roundtrip_amended`: the curve-agreement
component applied at term 12. -/
theorem invest_apy_roundtrip_amended_witness :
    (0.30 : ℚ) + ((12 - 3) / 21) * 1.70 = apyFromTerm 12 :=
  invest_apy_roundtrip_amended.2.2.1 12 (by norm_num) (by norm_num)

end YieldFarm
